import Mathlib

/-!
Verification of the fstab-generator decision logic
(`src/src/fstab-generator/fstab-generator.c`).

The C source is shallowly embedded below.  Pure string scanning
(`hasmntopt`, `strtoul`, option classification), the per-entry
classification of `add_mount`/`add_swap`, the kernel-command-line folding
of `parse_proc_cmdline_item` and the pass orchestration of `parse_fstab`
and `main` are translated into executable Lean functions.  The filesystem
sink is represented by a list of emitted unit descriptors and activation
links plus the set of unit file names already created (which is what makes
`fopen(..., "wxe")` fail with `EEXIST` on duplicates).  External helpers
that live outside this repository (unit-name escaping, device-node
resolution, the API/ignore mount-point tables, network-filesystem table,
option filtering, boolean parsing) are modelled from the specification and
are marked as such in their doc comments.

Machine integers: `unsigned long` is modelled as `Nat` reduced at the
64-bit (LP64) boundary, the `(int)` cast as reduction modulo `2^32` into
a signed value, matching the 64-bit platform named by the claims.
-/

namespace FstabGen

/-- errno value `EINVAL`. -/
def EINVAL : Int := 22

/-- errno value `ERANGE`. -/
def ERANGE : Int := 34

/-- errno value `EEXIST`. -/
def EEXIST : Int := 17

/-- `ULONG_MAX` on an LP64 platform. -/
def ULONG_MAX : Nat := 2 ^ 64 - 1

/-- The `(int)` cast of an `unsigned long` value on LP64: reduce modulo
`2^32` and reinterpret as two's-complement signed. -/
def toInt32 (n : Nat) : Int :=
  let m : Nat := n % 2 ^ 32
  if m < 2 ^ 31 then (m : Int) else (m : Int) - 2 ^ 32

/-- Characters accepted by `isspace` in the C locale (the ones `strtoul`
skips). -/
def isSpaceC (c : Char) : Bool :=
  c = ' ' ∨ c = '\t' ∨ c = '\n' ∨ c = '\x0b' ∨ c = '\x0c' ∨ c = '\r'

/-- Numeric value of a list of decimal digit characters. -/
def natOfDigits (l : List Char) : Nat :=
  l.foldl (fun a c => a * 10 + (c.toNat - 48)) 0

/-- Result of `strtoul(nptr, &end, 10)`: the returned `unsigned long`
(already wrapped/saturated), the number of characters consumed
(`end - nptr`, which is `0` when no conversion was performed), and
whether `errno` was set to `ERANGE`. -/
structure Strtoul where
  value : Nat
  consumed : Nat
  erange : Bool
deriving DecidableEq

/-- `strtoul` with base 10: skip `isspace` characters, an optional sign,
then a maximal run of decimal digits.  On magnitude overflow the result
saturates at `ULONG_MAX` with `errno = ERANGE`; a `-` sign wraps the
magnitude modulo `2^64`.  If no digits are found, no conversion is
performed and `end` equals the original pointer. -/
def strtoul10 (s : List Char) : Strtoul :=
  let ws := s.takeWhile isSpaceC
  let s1 := s.dropWhile isSpaceC
  match s1 with
  | '-' :: r =>
      let ds := r.takeWhile Char.isDigit
      if ds = [] then ⟨0, 0, false⟩
      else
        let m := natOfDigits ds
        if m > ULONG_MAX then ⟨ULONG_MAX, ws.length + 1 + ds.length, true⟩
        else ⟨(2 ^ 64 - m % 2 ^ 64) % 2 ^ 64, ws.length + 1 + ds.length, false⟩
  | '+' :: r =>
      let ds := r.takeWhile Char.isDigit
      if ds = [] then ⟨0, 0, false⟩
      else
        let m := natOfDigits ds
        if m > ULONG_MAX then ⟨ULONG_MAX, ws.length + 1 + ds.length, true⟩
        else ⟨m, ws.length + 1 + ds.length, false⟩
  | r =>
      let ds := r.takeWhile Char.isDigit
      if ds = [] then ⟨0, 0, false⟩
      else
        let m := natOfDigits ds
        if m > ULONG_MAX then ⟨ULONG_MAX, ws.length + ds.length, true⟩
        else ⟨m, ws.length + ds.length, false⟩

/-- Does a comma-separated token satisfy `hasmntopt`'s match for `opt`:
the token is `opt` itself, or starts with `opt` followed by `=`
(the next character after the matched name is `\0`, `,` or `=`). -/
def tokMatch (opt tok : List Char) : Bool :=
  tok = opt ∨ (opt ++ ['=']).isPrefixOf tok

/-- Fuel-driven scan over the comma-separated tokens of an option string,
mirroring glibc's `hasmntopt`: at each token start, check the token; on
failure, skip to the character after the next comma.  Returns the suffix
of the option string starting at the matched token (the pointer
`hasmntopt` returns). -/
def findTokFromAux (opt : List Char) : Nat → List Char → Option (List Char)
  | 0, _ => none
  | fuel + 1, l =>
    if tokMatch opt (l.takeWhile (fun c => c ≠ ',')) then some l
    else
      match l.dropWhile (fun c => c ≠ ',') with
      | [] => none
      | _ :: r => findTokFromAux opt fuel r

/-- `hasmntopt(me, opt)` on the raw option string, as the suffix starting
at the matched token (or `none`). -/
def findTokFrom (opt l : List Char) : Option (List Char) :=
  findTokFromAux opt (l.length + 1) l

/-- String-level `hasmntopt`: the returned pointer as the suffix of the
option string from the matched token on. -/
def hasmntoptS (opts opt : String) : Option String :=
  (findTokFrom opt.toList opts.toList).map (fun l => String.mk l)

/-- `mount_test_option(options, name)`: token membership test over a raw
option string (same token matching as `hasmntopt`). -/
def mount_test_option (options opt : String) : Bool :=
  (hasmntoptS options opt).isSome

/-- Outcome of `mount_find_pri`: the C function returns `0` (key absent),
`1` with `*ret` set, or a negative errno. -/
inductive PriRes where
  | absent : PriRes
  | found : Int → PriRes
  | err : Int → PriRes
deriving DecidableEq

/-- Is the result a (negative) error? -/
def PriRes.isErr : PriRes → Bool
  | .err _ => true
  | _ => false

/-- `mount_find_pri`: look up the `pri` option with `hasmntopt`; require
an `=` right after the name; parse the value with `strtoul(.., 10)`;
`errno` (only `ERANGE` can occur) is fatal; no digits consumed or a
trailing character other than `,`/end-of-string is `-EINVAL`; otherwise
store `(int) r`. -/
def mount_find_pri (opts : String) : PriRes :=
  match findTokFrom ("pri".toList) opts.toList with
  | none => .absent
  | some suf =>
    match suf.drop 3 with
    | '=' :: v =>
      let st := strtoul10 v
      if st.erange then .err (-ERANGE)
      else if st.consumed = 0 then .err (-EINVAL)
      else
        match v.drop st.consumed with
        | [] => .found (toInt32 st.value)
        | c :: _ => if c = ',' then .found (toInt32 st.value) else .err (-EINVAL)
    | _ => .err (-EINVAL)

/-! ### Path helpers and external oracles -/

/-- Prefix test on strings (kernel-computable `startsWith`). -/
def strStartsWith (s pre : String) : Bool :=
  pre.toList.isPrefixOf s.toList

/-- Drop the first `n` characters of a string. -/
def strDrop (s : String) (n : Nat) : String :=
  String.mk (s.toList.drop n)

/-- Split a character list at every occurrence of `sep` (occurrences are
dropped; empty pieces are kept). -/
def splitOnCharL (sep : Char) : List Char → List (List Char)
  | [] => [[]]
  | c :: rest =>
      if c = sep then [] :: splitOnCharL sep rest
      else
        match splitOnCharL sep rest with
        | [] => [[c]]
        | t :: ts => (c :: t) :: ts

/-- Join strings with a separator (kernel-computable `intercalate`). -/
def joinSep (sep : String) : List String → String
  | [] => ""
  | [x] => x
  | x :: y :: rest => x ++ sep ++ joinSep sep (y :: rest)

/-- `path_is_absolute`: the path starts with `/`. -/
def path_is_absolute (p : String) : Bool :=
  strStartsWith p "/"

/-- Modelled from the spec: `is_path` validates that a candidate mount
point is a non-empty absolute path (spec §4.4 step 4, invariant §3);
the helper itself lives outside this repository. -/
def is_path (p : String) : Bool :=
  path_is_absolute p

/-- Collapse runs of consecutive `/` characters (`path_kill_slashes`,
external path cleanup helper; modelled from the spec's canonical-path
handling). -/
def kill_slashes : List Char → List Char
  | [] => []
  | [c] => [c]
  | a :: b :: rest =>
      if a = '/' ∧ b = '/' then kill_slashes (b :: rest)
      else a :: kill_slashes (b :: rest)

/-- `path_kill_slashes` on strings. -/
def path_kill_slashes (p : String) : String :=
  String.mk (kill_slashes p.toList)

/-- The non-empty `/`-separated components of a path. -/
def pathComps (p : String) : List String :=
  ((splitOnCharL '/' p.toList).filter (fun s => s ≠ [])).map (fun l => String.mk l)

/-- Modelled from the spec: `path_equal` compares two paths
component-wise (the "resolves to the same path" comparison used for the
system-root test); both must agree on absoluteness and have equal
component lists. -/
def path_equal (a b : String) : Bool :=
  (path_is_absolute a = path_is_absolute b) ∧ pathComps a = pathComps b

/-- Modelled from the spec: `is_device_path` recognizes block/character
device-like paths (the environment-oracle-based suppression test). -/
def is_device_path (p : String) : Bool :=
  strStartsWith p "/dev/" ∨ strStartsWith p "/sys/"

/-- Modelled from the spec: `fstab_node_to_udev_node`, the device-path
resolution oracle: `LABEL=`/`UUID=` specs resolve under
`/dev/disk/by-label/` and `/dev/disk/by-uuid/`, anything else is
returned unchanged. -/
def fstab_node_to_udev_node (node : String) : String :=
  if strStartsWith node "LABEL=" then "/dev/disk/by-label/" ++ strDrop node 6
  else if strStartsWith node "UUID=" then "/dev/disk/by-uuid/" ++ strDrop node 5
  else node

/-- Modelled from the spec: `mount_point_is_api` — the reserved
API/virtual-filesystem mount points handled by early mount setup. -/
def mount_point_is_api (w : String) : Bool :=
  ["/proc", "/sys", "/dev", "/run"].any (fun p => path_equal w p)

/-- Modelled from the spec: `mount_point_ignore` — the configured
ignore-list of mount points (spec §8 places `/run/lock` in it). -/
def mount_point_ignore (w : String) : Bool :=
  ["/proc/sys/fs/binfmt_misc", "/sys/fs/fuse/connections", "/run/lock",
   "/sys/fs/selinux", "/dev/hugepages", "/dev/mqueue"].any
    (fun p => path_equal w p)

/-- Modelled from the spec: `fstype_is_network` — the fixed lookup table
of network filesystem types. -/
def fstype_is_network (t : String) : Bool :=
  ["cifs", "smbfs", "sshfs", "ncp", "ncpfs", "nfs", "nfs4", "gfs", "gfs2"].contains t

/-- Modelled from the spec: `parse_boolean` — recognized spellings of a
boolean kernel-command-line value; anything else is a parse error
(`none`). -/
def parse_boolean (v : String) : Option Bool :=
  if ["1", "yes", "y", "true", "t", "on"].contains v then some true
  else if ["0", "no", "n", "false", "f", "off"].contains v then some false
  else none

/-- Modelled from the spec: the option filtering performed by
`generator_write_timeouts` (external): device-timeout options are
consumed and the remaining option string is handed back for emission. -/
def filter_timeouts (opts : String) : String :=
  joinSep ","
    ((splitOnCharL ',' opts.toList).filterMap (fun t =>
        if strStartsWith (String.mk t) "comment=systemd.device-timeout="
           ∨ strStartsWith (String.mk t) "x-systemd.device-timeout=" then none
        else some (String.mk t)))

/-- A hexadecimal digit character. -/
def hexDigit (n : Nat) : Char :=
  if n < 10 then Char.ofNat (48 + n) else Char.ofNat (87 + n)

/-- Is the character safe (left unescaped) in a unit-name component? -/
def unitNameSafe (c : Char) : Bool :=
  c.isAlphanum ∨ c = ':' ∨ c = '_' ∨ c = '.'

/-- Escape one path component for use in a unit name. -/
def escapeComp (s : String) : String :=
  String.mk (s.toList.foldr
    (fun c acc =>
      if unitNameSafe c then c :: acc
      else '\\' :: 'x' :: hexDigit (c.toNat / 16 % 16) :: hexDigit (c.toNat % 16) :: acc)
    [])

/-- Modelled from the spec: `unit_name_from_path` (external
`unit-name.c`): the path is cleaned, decomposed into components, each
component escaped, the components joined with `-`, the root path mapped
to the reserved literal `-`, and the unit-type suffix appended. -/
def unit_name_from_path (path suffix : String) : String :=
  let comps := pathComps (path_kill_slashes path)
  (if comps = [] then "-" else joinSep "-" (comps.map escapeComp)) ++ suffix

/-! ### Data model: table entries, emitted descriptors, context -/

/-- One `struct mntent` record as handed over by the external
mount-table reader. -/
structure MntEnt where
  mnt_fsname : String
  mnt_dir : String
  mnt_type : String
  mnt_opts : String
  mnt_freq : Int
  mnt_passno : Int
deriving DecidableEq

/-- The swap unit file body (`[Swap]` section): `Priority=` is emitted
only for a non-negative stored priority and `Options=` only for a
non-empty option string different from `defaults`. -/
structure SwapUnit where
  what : String
  priority : Option Int
  options : Option String
deriving DecidableEq

/-- The mount unit file body: `Before=` ordering edge (when present),
whether fsck dependencies were written (`passno != 0`), the `[Mount]`
section fields with optional `Type=` and filtered `Options=`. -/
structure MountUnit where
  source : String
  before : Option String
  fsck : Bool
  what : String
  mountWhere : String
  fstype : Option String
  options : Option String
deriving DecidableEq

/-- The companion automount unit file body. -/
structure AutomountUnit where
  source : String
  before : Option String
  mountWhere : String
deriving DecidableEq

/-- An activation-link request into `<target>.wants/` (weak) or
`<target>.requires/` (strong), pulling in the named generated unit. -/
structure LinkReq where
  target : String
  weak : Bool
  unitName : String
deriving DecidableEq

/-- Everything handed to the filesystem sink. -/
inductive Emit where
  | swapUnit : String → SwapUnit → Emit
  | mountUnit : String → MountUnit → Emit
  | automountUnit : String → AutomountUnit → Emit
  | link : LinkReq → Emit
deriving DecidableEq

/-- The activation links among a list of emissions. -/
def linksOf (l : List Emit) : List LinkReq :=
  l.filterMap (fun e => match e with | Emit.link lr => some lr | _ => none)

/-- Read-only execution context: the environment oracles
`detect_container` and `in_initrd`. -/
structure Ctx where
  inContainer : Bool
  inInitrd : Bool
deriving DecidableEq

/-- `SPECIAL_SWAP_TARGET`. -/
def SPECIAL_SWAP_TARGET : String := "swap.target"

/-- `SPECIAL_INITRD_FS_TARGET`. -/
def SPECIAL_INITRD_FS_TARGET : String := "initrd-fs.target"

/-- `SPECIAL_INITRD_ROOT_FS_TARGET`. -/
def SPECIAL_INITRD_ROOT_FS_TARGET : String := "initrd-root-fs.target"

/-- `SPECIAL_REMOTE_FS_TARGET`. -/
def SPECIAL_REMOTE_FS_TARGET : String := "remote-fs.target"

/-- `SPECIAL_LOCAL_FS_TARGET`. -/
def SPECIAL_LOCAL_FS_TARGET : String := "local-fs.target"

/-! ### add_swap / add_mount -/

/-- `add_swap`: skip entirely inside a container; a priority parse
failure is fatal for the entry; a duplicate swap unit file name fails
with `-EEXIST`; otherwise emit the swap unit (with `Priority=` only for
a non-negative stored priority, `Options=` for a non-empty option string
other than `defaults`) and, unless `noauto`, an activation link into the
swap target (`.wants` when `nofail`, `.requires` otherwise). -/
def add_swap (ctx : Ctx) (what : String) (me : MntEnt) (noauto nofail : Bool)
    (created : List String) : Int × List String × List Emit :=
  if ctx.inContainer then (0, created, [])
  else
    match mount_find_pri me.mnt_opts with
    | PriRes.err e => (e, created, [])
    | pr =>
      let pri : Int := match pr with | PriRes.found p => p | _ => -1
      let name := unit_name_from_path what ".swap"
      if name ∈ created then (-EEXIST, created, [])
      else
        let su : SwapUnit :=
          { what := what
            priority := if pri ≥ 0 then some pri else none
            options :=
              if me.mnt_opts = "" ∨ me.mnt_opts = "defaults" then none
              else some me.mnt_opts }
        (0, name :: created,
          Emit.swapUnit name su ::
            (if noauto then [] else [Emit.link ⟨SPECIAL_SWAP_TARGET, nofail, name⟩]))

/-- `mount_is_network`: `_netdev` option or network filesystem type. -/
def mount_is_network (me : MntEnt) : Bool :=
  (hasmntoptS me.mnt_opts "_netdev").isSome ∨ fstype_is_network me.mnt_type

/-- `mount_in_initrd`: `x-initrd.mount` option or mount point `/usr`. -/
def mount_in_initrd (me : MntEnt) : Bool :=
  (hasmntoptS me.mnt_opts "x-initrd.mount").isSome ∨ me.mnt_dir = "/usr"

/-- `add_mount`: the central mount-entry classification and emission.
`autofs` entries, invalid mount points and API/ignored mount points are
skipped with status `0`; a mount point equal to the system root forces
`automount`, `noauto` and `nofail` off; a duplicate unit file name fails
with `-EEXIST`; otherwise the mount unit is emitted (with a `Before=`
edge only for a required member, fsck deps for `passno != 0`, optional
`Type=` and filtered `Options=`), plus — unless `noauto` and when an
ordering target is given — an activation link (`.wants` when `nofail`
or `automount`, else `.requires`), plus — when `automount` — the
companion automount unit and its own activation link (`.wants` iff
`nofail`), the latter created regardless of `noauto`. -/
def add_mount (what mountWhere : String) (fstype : Option String) (opts : String)
    (passno : Int) (noauto nofail automount : Bool) (post : Option String)
    (source : String) (created : List String) : Int × List String × List Emit :=
  if fstype = some "autofs" then (0, created, [])
  else if !(is_path mountWhere) then (0, created, [])
  else if mount_point_is_api mountWhere ∨ mount_point_ignore mountWhere then (0, created, [])
  else
    let isRoot := path_equal mountWhere "/"
    let automount := if isRoot then false else automount
    let noauto := if isRoot then false else noauto
    let nofail := if isRoot then false else nofail
    let name := unit_name_from_path mountWhere ".mount"
    if name ∈ created then (-EEXIST, created, [])
    else
      let filtered := filter_timeouts opts
      let mu : MountUnit :=
        { source := source
          before := if post.isSome ∧ !noauto ∧ !nofail ∧ !automount then post else none
          fsck := passno ≠ 0
          what := what
          mountWhere := mountWhere
          fstype :=
            match fstype with
            | some t => if t = "" ∨ t = "auto" then none else some t
            | none => none
          options :=
            if filtered = "" ∨ filtered = "defaults" then none else some filtered }
      let created := name :: created
      let emits := [Emit.mountUnit name mu] ++
        (match post with
         | some p => if noauto then [] else [Emit.link ⟨p, nofail ∨ automount, name⟩]
         | none => [])
      if automount then
        let amName := unit_name_from_path mountWhere ".automount"
        if amName ∈ created then (-EEXIST, created, emits)
        else
          let au : AutomountUnit :=
            { source := source, before := post, mountWhere := mountWhere }
          (0, amName :: created,
            emits ++ [Emit.automountUnit amName au,
                      Emit.link ⟨post.getD "", nofail, amName⟩])
      else (0, created, emits)

/-! ### The fstab pass -/

/-- One iteration of the `getmntent` loop of `parse_fstab`: skip
non-early-boot entries in the initrd pass; resolve the device spec; skip
device entries inside a container; prefix the mount point with
`/sysroot` in the initrd pass and clean it; read the `noauto`/`nofail`
markers; dispatch to `add_swap` or (with the automount marker and the
ordering-target cascade) `add_mount`. -/
def process_entry (ctx : Ctx) (initrd : Bool) (me : MntEnt)
    (created : List String) : Int × List String × List Emit :=
  if initrd ∧ !(mount_in_initrd me) then (0, created, [])
  else
    let what := fstab_node_to_udev_node me.mnt_fsname
    if ctx.inContainer ∧ is_device_path what then (0, created, [])
    else
      let w0 := if initrd then "/sysroot/" ++ me.mnt_dir else me.mnt_dir
      let mountWhere := if is_path w0 then path_kill_slashes w0 else w0
      let noauto := (hasmntoptS me.mnt_opts "noauto").isSome
      let nofail := (hasmntoptS me.mnt_opts "nofail").isSome
      if me.mnt_type = "swap" then add_swap ctx what me noauto nofail created
      else
        let automount :=
          (hasmntoptS me.mnt_opts "comment=systemd.automount").isSome ∨
          (hasmntoptS me.mnt_opts "x-systemd.automount").isSome
        let post :=
          if initrd then SPECIAL_INITRD_FS_TARGET
          else if mount_in_initrd me then SPECIAL_INITRD_ROOT_FS_TARGET
          else if mount_is_network me then SPECIAL_REMOTE_FS_TARGET
          else SPECIAL_LOCAL_FS_TARGET
        add_mount what mountWhere (some me.mnt_type) me.mnt_opts me.mnt_passno
          noauto nofail automount (some post)
          (if initrd then "/sysroot/etc/fstab" else "/etc/fstab") created

/-- The `getmntent` loop: each entry is processed; a failing entry
(`k < 0`) replaces the running status but processing continues. -/
def parse_fstab_go (ctx : Ctx) (initrd : Bool) :
    List MntEnt → Int → List String → List Emit → Int × List String × List Emit
  | [], r, created, acc => (r, created, acc)
  | me :: rest, r, created, acc =>
      let p := process_entry ctx initrd me created
      parse_fstab_go ctx initrd rest (if p.1 < 0 then p.1 else r) p.2.1 (acc ++ p.2.2)

/-- `parse_fstab`: an absent table file (`ENOENT`) is "no entries", not
an error; otherwise run the entry loop starting from status `0`. -/
def parse_fstab (ctx : Ctx) (initrd : Bool) (entries : Option (List MntEnt))
    (created : List String) : Int × List String × List Emit :=
  match entries with
  | none => (0, created, [])
  | some es => parse_fstab_go ctx initrd es 0 created []

/-! ### Kernel-command-line overrides -/

/-- The module-level `arg_*` override record built from the kernel
command line. -/
structure Args where
  fstab_enabled : Bool := true
  root_what : Option String := none
  root_fstype : Option String := none
  root_options : Option String := none
  root_rw : Option Bool := none
  usr_what : Option String := none
  usr_fstype : Option String := none
  usr_options : Option String := none
deriving DecidableEq

/-- The overrides' initial values. -/
def argsDefault : Args := {}

/-- `parse_proc_cmdline_item`: fold one boot parameter into the override
record.  `fstab=`/`rd.fstab=` parse a boolean (malformed values are
ignored with a warning); `root=`, `rootfstype=`, `mount.usr=`,
`mount.usrfstype=` overwrite (last wins); `rootflags=`,
`mount.usrflags=` append to any previous value with a comma; bare `rw`
and `ro` set the root read/write tri-state; everything else is
ignored. -/
def parse_proc_cmdline_item (a : Args) (kv : String × Option String) : Args :=
  match kv with
  | (key, some v) =>
      if key = "fstab" ∨ key = "rd.fstab" then
        match parse_boolean v with
        | some b => { a with fstab_enabled := b }
        | none => a
      else if key = "root" then { a with root_what := some v }
      else if key = "rootfstype" then { a with root_fstype := some v }
      else if key = "rootflags" then
        let o := match a.root_options with
                 | some o => o ++ "," ++ v
                 | none => v
        { a with root_options := some o }
      else if key = "mount.usr" then { a with usr_what := some v }
      else if key = "mount.usrfstype" then { a with usr_fstype := some v }
      else if key = "mount.usrflags" then
        let o := match a.usr_options with
                 | some o => o ++ "," ++ v
                 | none => v
        { a with usr_options := some o }
      else a
  | (key, none) =>
      if key = "rw" then { a with root_rw := some true }
      else if key = "ro" then { a with root_rw := some false }
      else a

/-! ### Boot-override mounts and main -/

/-- `add_root_mount`: nothing to do without a `root=` entry; a
non-absolute resolved device is skipped with a debug message and status
`0`; otherwise synthesize the `/sysroot` mount (passno `1`, all optional
flags off) ordered before the early-boot root-fs target, merging the
`rw`/`ro` tri-state into the options. -/
def add_root_mount (a : Args) (created : List String) :
    Int × List String × List Emit :=
  match a.root_what with
  | none => (0, created, [])
  | some rw =>
    if rw = "" then (0, created, [])
    else
      let what := fstab_node_to_udev_node rw
      if !(path_is_absolute what) then (0, created, [])
      else
        let opts :=
          match a.root_options with
          | none => if a.root_rw = some true then "rw" else "ro"
          | some o =>
            if a.root_rw.isSome ∨
               (!(mount_test_option o "ro") ∧ !(mount_test_option o "rw")) then
              o ++ "," ++ (if a.root_rw = some true then "rw" else "ro")
            else o
        add_mount what "/sysroot" a.root_fstype opts 1 false false false
          (some SPECIAL_INITRD_ROOT_FS_TARGET) "/proc/cmdline" created

/-- `add_usr_mount`: nothing to do when all three `mount.usr*` fields
are unset; otherwise each still-unset usr field is defaulted from the
corresponding root field (writing the module-level record back, hence
the updated `Args` in the result); without a (possibly defaulted) device
and option string nothing is emitted; a non-absolute resolved device is
skipped with a debug message but returns `-1`; otherwise synthesize the
`/sysroot/usr` mount like the root one. -/
def add_usr_mount (a : Args) (created : List String) :
    Int × Args × List String × List Emit :=
  if a.usr_what = none ∧ a.usr_fstype = none ∧ a.usr_options = none then
    (0, a, created, [])
  else
    let uw := if a.root_what.isSome ∧ a.usr_what = none then a.root_what else a.usr_what
    let uf := if a.root_fstype.isSome ∧ a.usr_fstype = none then a.root_fstype else a.usr_fstype
    let uo := if a.root_options.isSome ∧ a.usr_options = none then a.root_options else a.usr_options
    let a' := { a with usr_what := uw, usr_fstype := uf, usr_options := uo }
    match uw, uo with
    | some w, some o =>
        let what := fstab_node_to_udev_node w
        if !(path_is_absolute what) then (-1, a', created, [])
        else
          let m := add_mount what "/sysroot/usr" uf o 1 false false false
            (some SPECIAL_INITRD_ROOT_FS_TARGET) "/proc/cmdline" created
          (m.1, a', m.2.1, m.2.2)
    | _, _ => (0, a', created, [])

/-- `main`: fold the kernel command line into the override record; in an
initrd, synthesize the root boot-override mount and — only when it
succeeded — the usr one; when fstab processing is enabled, run the local
fstab pass and, in an initrd, the host fstab pass, each failure
replacing the running status; exit with failure iff the final status is
negative.  The two table inputs are `none` when the file is absent. -/
def mainRun (ctx : Ctx) (cmdline : List (String × Option String))
    (etcFstab sysrootFstab : Option (List MntEnt)) : Int × List Emit :=
  let a := cmdline.foldl parse_proc_cmdline_item argsDefault
  let boot :=
    if ctx.inInitrd then
      let rm := add_root_mount a []
      if rm.1 = 0 then
        let um := add_usr_mount a rm.2.1
        (um.1, um.2.1, um.2.2.1, rm.2.2 ++ um.2.2.2)
      else (rm.1, a, rm.2.1, rm.2.2)
    else ((0 : Int), a, ([] : List String), ([] : List Emit))
  let r := boot.1
  let a := boot.2.1
  let created := boot.2.2.1
  let em1 := boot.2.2.2
  let fst :=
    if a.fstab_enabled then
      let k1 := parse_fstab ctx false etcFstab created
      let r := if k1.1 < 0 then k1.1 else r
      if ctx.inInitrd then
        let k2 := parse_fstab ctx true sysrootFstab k1.2.1
        (if k2.1 < 0 then k2.1 else r, k1.2.2 ++ k2.2.2)
      else (r, k1.2.2)
    else (r, ([] : List Emit))
  (if fst.1 < 0 then 1 else 0, em1 ++ fst.2)

/-! ### Spec-side (declarative) descriptions used for refinement
statements -/

/-- The ten decimal digit characters. -/
def digitChars : List Char :=
  ['0', '1', '2', '3', '4', '5', '6', '7', '8', '9']

/-- First-set-wins choice between two optional values (the defaulting
shape of the usr boot-override fields, and "value or fallback"
generally). -/
def optOr {α : Type} (x y : Option α) : Option α :=
  match x with
  | some v => some v
  | none => y

/-- Declarative "last occurrence wins" reading of the spec for the
root-device key: the last `root=` value on the command line, or the
prior value when none occurs. -/
def rootWhatSpec (L : List (String × Option String)) (init : Option String) :
    Option String :=
  optOr (L.filterMap (fun kv => if kv.1 = "root" then kv.2 else none)).getLast? init

/-- Declarative "concatenate with a comma in order" reading of the spec
for the root-options key: all `rootflags=` values appended, in order, to
the prior value. -/
def rootOptionsSpec (L : List (String × Option String)) (init : Option String) :
    Option String :=
  let vs := L.filterMap (fun kv => if kv.1 = "rootflags" then kv.2 else none)
  match init with
  | some o => some (joinSep "," (o :: vs))
  | none => if vs = [] then none else some (joinSep "," vs)

/-! ## Theorems for the claims -/

/-- Claim C9: inside an isolated/container instance every swap entry is
skipped unconditionally — for any device path, even one that is not
block-device-like (a swap file), and for any option flags — so no swap
unit and no activation link are produced. -/
theorem claim_C9 (ii : Bool) (what : String) (me : MntEnt) (noauto nofail : Bool)
    (created : List String) :
    add_swap ⟨true, ii⟩ what me noauto nofail created = (0, created, []) := rfl

/-- Claim C10: for the well-formed digit value `pri=4294967295` (whose
value reduced modulo the machine word and cast to a signed 32-bit int is
`-1`), priority parsing succeeds with a negative stored priority, and
the emitted swap unit carries no `Priority=` field because emission
requires a non-negative stored priority. -/
theorem claim_C10 :
    mount_find_pri "pri=4294967295" = PriRes.found (-1) ∧
    add_swap ⟨false, false⟩ "/swapfile"
        ⟨"/swapfile", "none", "swap", "pri=4294967295", 0, 0⟩ false false [] =
      (0, ["swapfile.swap"],
       [Emit.swapUnit "swapfile.swap" ⟨"/swapfile", none, some "pri=4294967295"⟩,
        Emit.link ⟨SPECIAL_SWAP_TARGET, false, "swapfile.swap"⟩]) := by
  decide

/-- Claim C2, counterexample: for the well-formed option `pri=4294967295`
(digits immediately followed by end-of-string) the extractor does NOT
yield the parsed non-negative integer 4294967295: the `(int)` cast makes
it return `-1`, without any error. -/
theorem claim_C2_counterexample :
    mount_find_pri "pri=4294967295" = PriRes.found (-1) ∧
    PriRes.found (-1) ≠ PriRes.found 4294967295 ∧
    (mount_find_pri "pri=4294967295").isErr = false := by
  decide

/-- Claim C3, counterexample: in a run whose first failing entry records
status `-22` (malformed priority) and whose last failing entry records
`-17` (duplicate unit), the pass returns `-17` — the LAST non-zero
status, not the first. -/
theorem claim_C3_counterexample :
    (parse_fstab ⟨false, false⟩ false
        (some [⟨"/dev/sdb1", "none", "swap", "pri=", 0, 0⟩]) []).1 = -22 ∧
    (parse_fstab ⟨false, false⟩ false
        (some [⟨"/dev/sdb1", "none", "swap", "pri=", 0, 0⟩,
               ⟨"/dev/sda2", "/data", "ext4", "defaults", 0, 2⟩,
               ⟨"/dev/sda2", "/data", "ext4", "defaults", 0, 2⟩]) []).1 = -17 ∧
    (-17 : Int) ≠ -22 := by
  decide

/-- Claim C5, counterexample: for an entry with options
`noauto,x-systemd.automount` (no-auto-start set, automount set), an
activation link for the companion automount unit IS produced even though
no-auto-start is set, and it is strong (`weak = false`) even though
automount is set — refuting both the "if and only if no-auto-start is
not set" and the "weak if fail-ignored or automount" parts. -/
theorem claim_C5_counterexample :
    (hasmntoptS "noauto,x-systemd.automount" "noauto").isSome = true ∧
    (hasmntoptS "noauto,x-systemd.automount" "x-systemd.automount").isSome = true ∧
    Emit.link ⟨SPECIAL_LOCAL_FS_TARGET, false, "data.automount"⟩ ∈
      (process_entry ⟨false, false⟩ false
        ⟨"/dev/sdc1", "/data", "ext4", "noauto,x-systemd.automount", 0, 0⟩ []).2.2 := by
  decide

/-- Claim C7, counterexample: with boot parameters `mount.usr=foo
mount.usrflags=ro` in an initrd, the resolved usr boot-override device
`foo` is not absolute; the mount is skipped but the run exits with
FAILURE (`1`), refuting "does not change the process exit status". -/
theorem claim_C7_counterexample :
    mainRun ⟨false, true⟩ [("mount.usr", some "foo"), ("mount.usrflags", some "ro")]
        none none = (1, []) ∧
    path_is_absolute (fstab_node_to_udev_node "foo") = false := by
  decide

/-- Claim C8, counterexample: with the root boot-override fully present
and all three usr fields wholly unset, `add_usr_mount` returns
immediately: no usr field is defaulted from the root fields (the record
is returned unchanged, all usr fields still unset) and no mount is
synthesized — refuting "each secondary-volume field defaults to the
corresponding root field's value" in the wholly-unset case. -/
theorem claim_C8_counterexample :
    add_usr_mount
        { fstab_enabled := true, root_what := some "/dev/sda",
          root_fstype := some "ext4", root_options := some "ro",
          root_rw := none, usr_what := none, usr_fstype := none,
          usr_options := none } [] =
      (0,
       { fstab_enabled := true, root_what := some "/dev/sda",
         root_fstype := some "ext4", root_options := some "ro",
         root_rw := none, usr_what := none, usr_fstype := none,
         usr_options := none }, [], []) := by
  decide

/-- Claim C1: for any entry whose mount point is exactly the system root
`/` (and which produces a Mount plan at all: its fs-type is not the
`autofs` sentinel and its unit name is not already taken), the plan has
automount, no-auto-start and fail-ignored all forced off, regardless of
the option-derived flags: exactly one mount unit and one strong
(`.requires`) activation link are emitted — the `Before=` edge is
present (no-auto-start/fail-ignored/automount all clear), the link is
produced (no-auto-start clear) and strong (fail-ignored and automount
clear), and no companion automount unit exists (automount clear). -/
theorem claim_C1 (what : String) (fstype : Option String) (opts : String)
    (passno : Int) (noauto nofail automount : Bool) (post source : String)
    (created : List String)
    (hft : fstype ≠ some "autofs") (hc : "-.mount" ∉ created) :
    add_mount what "/" fstype opts passno noauto nofail automount (some post)
        source created =
      (0, "-.mount" :: created,
       [Emit.mountUnit "-.mount"
          { source := source
            before := some post
            fsck := passno ≠ 0
            what := what
            mountWhere := "/"
            fstype :=
              match fstype with
              | some t => if t = "" ∨ t = "auto" then none else some t
              | none => none
            options :=
              if filter_timeouts opts = "" ∨ filter_timeouts opts = "defaults"
              then none else some (filter_timeouts opts) },
        Emit.link ⟨post, false, "-.mount"⟩]) := by
  have h1 : is_path "/" = true := by decide
  have h2 : mount_point_is_api "/" = false := by decide
  have h3 : mount_point_ignore "/" = false := by decide
  have h4 : path_equal "/" "/" = true := by decide
  have h5 : unit_name_from_path "/" ".mount" = "-.mount" := by decide
  simp only [add_mount, h1, h2, h3, h4, h5, if_neg hft]
  simp [hc]
  cases fstype <;> rfl

/-- Witness for claim C1 at a concrete input: even with `noauto`,
`nofail` and `automount` all requested by the options, the root mount's
plan keeps them off (strong link, `Before=` edge, no automount unit). -/
theorem claim_C1_witness :
    add_mount "/dev/root" "/" (some "ext4") "noauto,nofail,x-systemd.automount" 1
        true true true (some "local-fs.target") "/etc/fstab" [] =
      (0, ["-.mount"],
       [Emit.mountUnit "-.mount"
          ⟨"/etc/fstab", some "local-fs.target", true, "/dev/root", "/",
           some "ext4", some "noauto,nofail,x-systemd.automount"⟩,
        Emit.link ⟨"local-fs.target", false, "-.mount"⟩]) := by
  have h := claim_C1 "/dev/root" (some "ext4") "noauto,nofail,x-systemd.automount"
    1 true true true "local-fs.target" "/etc/fstab" [] (by decide) (by decide)
  rw [h]
  decide

lemma parse_fstab_go_shift (ctx : Ctx) (initrd : Bool) :
    ∀ (es : List MntEnt) (r : Int) (c : List String) (acc : List Emit),
      parse_fstab_go ctx initrd es r c acc =
        (if (parse_fstab_go ctx initrd es 0 c []).1 < 0
           then (parse_fstab_go ctx initrd es 0 c []).1 else r,
         (parse_fstab_go ctx initrd es 0 c []).2.1,
         acc ++ (parse_fstab_go ctx initrd es 0 c []).2.2) := by
  intro es
  induction es with
  | nil =>
      intro r c acc
      simp [parse_fstab_go]
  | cons me rest ih =>
      intro r c acc
      simp only [parse_fstab_go]
      rw [ih (if (process_entry ctx initrd me c).1 < 0
                then (process_entry ctx initrd me c).1 else r)
            ((process_entry ctx initrd me c).2.1)
            (acc ++ (process_entry ctx initrd me c).2.2),
          ih (if (process_entry ctx initrd me c).1 < 0
                then (process_entry ctx initrd me c).1 else 0)
            ((process_entry ctx initrd me c).2.1)
            ([] ++ (process_entry ctx initrd me c).2.2)]
      simp only [List.nil_append, Prod.mk.injEq]
      refine ⟨by split_ifs <;> omega, by simp [List.append_assoc]⟩

/-- Claim C3, amended: a failure of any single entry does not prevent
the remaining entries of the pass from being processed — splitting the
entry list anywhere, the emissions of the whole pass are exactly the
emissions of the first part followed by those of the second part
(processed with the first part's created-set), independent of any
failure statuses in the first part — and the pass returns the LAST
non-zero status recorded among the entries (the second part's status
when it failed, otherwise the first part's); any non-zero status makes
the process exit status a failure. -/
theorem claim_C3_amended (ctx : Ctx) (initrd : Bool) (es1 es2 : List MntEnt)
    (r : Int) (c : List String) (acc : List Emit) :
    parse_fstab_go ctx initrd (es1 ++ es2) r c acc =
      (if (parse_fstab_go ctx initrd es2 0 (parse_fstab_go ctx initrd es1 r c acc).2.1 []).1 < 0
         then (parse_fstab_go ctx initrd es2 0 (parse_fstab_go ctx initrd es1 r c acc).2.1 []).1
         else (parse_fstab_go ctx initrd es1 r c acc).1,
       (parse_fstab_go ctx initrd es2 0 (parse_fstab_go ctx initrd es1 r c acc).2.1 []).2.1,
       (parse_fstab_go ctx initrd es1 r c acc).2.2 ++
         (parse_fstab_go ctx initrd es2 0 (parse_fstab_go ctx initrd es1 r c acc).2.1 []).2.2) := by
  induction es1 generalizing r c acc with
  | nil =>
      simpa [parse_fstab_go] using parse_fstab_go_shift ctx initrd es2 r c acc
  | cons me es1' ih =>
      simp only [List.cons_append, parse_fstab_go]
      exact ih _ _ _

set_option maxHeartbeats 1000000 in
lemma add_mount_link_target (what mountWhere : String) (fstype : Option String)
    (opts : String) (passno : Int) (noauto nofail automount : Bool)
    (p source : String) (created : List String) (t : String) (w : Bool) (n : String)
    (hmem : Emit.link ⟨t, w, n⟩ ∈
      (add_mount what mountWhere fstype opts passno noauto nofail automount
        (some p) source created).2.2) :
    t = p := by
  by_cases h1 : fstype = some "autofs"
  · simp [add_mount, h1] at hmem
  · by_cases h2 : is_path mountWhere
    · by_cases h3 : mount_point_is_api mountWhere ∨ mount_point_ignore mountWhere
      · simp [add_mount, h1, h2, h3] at hmem
      · by_cases h4 : unit_name_from_path mountWhere ".mount" ∈ created
        · simp [add_mount, h1, h2, h3, h4] at hmem
        · simp only [add_mount, h1, h2, h3, h4] at hmem
          split_ifs at hmem <;>
            simp only [List.mem_append, List.mem_cons, List.not_mem_nil,
              List.mem_singleton, or_false, false_or, Option.getD_some] at hmem <;>
            rcases hmem with h | h | h | h <;> simp_all
    · simp [add_mount, h1, h2] at hmem

/-- Claim C4: every activation link emitted for a non-swap fstab entry
targets the ordering target chosen by the priority cascade: the
early-boot filesystem target in the initrd pass; else the early-boot
root-filesystem target when the entry carries the `x-initrd.mount`
marker or its mount point is `/usr`; else the remote-filesystem target
when it has the `_netdev` option or a network filesystem type; else the
local-filesystem target. -/
theorem claim_C4 (ctx : Ctx) (initrd : Bool) (me : MntEnt) (created : List String)
    (t : String) (w : Bool) (n : String)
    (hsw : me.mnt_type ≠ "swap")
    (hmem : Emit.link ⟨t, w, n⟩ ∈ (process_entry ctx initrd me created).2.2) :
    t = (if initrd then SPECIAL_INITRD_FS_TARGET
         else if (hasmntoptS me.mnt_opts "x-initrd.mount").isSome ∨ me.mnt_dir = "/usr"
           then SPECIAL_INITRD_ROOT_FS_TARGET
         else if (hasmntoptS me.mnt_opts "_netdev").isSome ∨ fstype_is_network me.mnt_type
           then SPECIAL_REMOTE_FS_TARGET
         else SPECIAL_LOCAL_FS_TARGET) := by
  by_cases h1 : initrd ∧ !(mount_in_initrd me)
  · simp [process_entry, h1] at hmem
  · by_cases h2 : ctx.inContainer ∧ is_device_path (fstab_node_to_udev_node me.mnt_fsname)
    · simp [process_entry, h1, h2] at hmem
    · simp only [process_entry, if_neg h1, if_neg h2, if_neg hsw] at hmem
      have ht := add_mount_link_target _ _ _ _ _ _ _ _ _ _ _ _ _ _ hmem
      rw [ht]
      simp [mount_in_initrd, mount_is_network]

/-- Witness for claim C4 at a concrete input: a plain local entry's
activation link targets the local-filesystem target of the cascade. -/
theorem claim_C4_witness :
    Emit.link ⟨"local-fs.target", false, "data.mount"⟩ ∈
      (process_entry ⟨false, false⟩ false
        ⟨"/dev/sda1", "/data", "ext4", "defaults", 0, 2⟩ []).2.2 ∧
    "local-fs.target" =
      (if (false : Bool) then SPECIAL_INITRD_FS_TARGET
       else if (hasmntoptS "defaults" "x-initrd.mount").isSome ∨ ("/data" : String) = "/usr"
         then SPECIAL_INITRD_ROOT_FS_TARGET
       else if (hasmntoptS "defaults" "_netdev").isSome ∨ fstype_is_network "ext4"
         then SPECIAL_REMOTE_FS_TARGET
       else SPECIAL_LOCAL_FS_TARGET) := by
  refine ⟨by decide, ?_⟩
  exact claim_C4 ⟨false, false⟩ false ⟨"/dev/sda1", "/data", "ext4", "defaults", 0, 2⟩
    [] "local-fs.target" false "data.mount" (by decide) (by decide)


lemma optOr_some {α : Type} (v : α) (y : Option α) : optOr (some v) y = some v := rfl

lemma optOr_none {α : Type} (y : Option α) : optOr none y = y := rfl

lemma optOr_optOr_some {α : Type} (M : Option α) (x : α) (i : Option α) :
    optOr (optOr M (some x)) i = optOr M (some x) := by
  rcases M with _ | v <;> rfl

lemma getLast?_cons_optOr {α : Type} (x : α) (m : List α) :
    (x :: m).getLast? = optOr m.getLast? (some x) := by
  cases m with
  | nil => simp [optOr]
  | cons b l =>
      rw [List.getLast?_cons_cons]
      rcases h : (b :: l).getLast? with _ | y
      · exact absurd (List.getLast?_eq_none_iff.mp h) (by simp)
      · rfl

lemma step_root_what (a : Args) (kv : String × Option String) :
    (parse_proc_cmdline_item a kv).root_what =
      if kv.1 = "root" ∧ kv.2.isSome then kv.2 else a.root_what := by
  rcases kv with ⟨k, v⟩
  cases v with
  | none =>
      simp only [parse_proc_cmdline_item]
      split_ifs <;> simp_all
  | some x =>
      rcases hb : parse_boolean x with _ | b <;>
        simp only [parse_proc_cmdline_item, hb] <;>
        split_ifs <;> simp_all

lemma step_root_options (a : Args) (kv : String × Option String) :
    (parse_proc_cmdline_item a kv).root_options =
      if kv.1 = "rootflags" ∧ kv.2.isSome then
        some (match a.root_options with
              | some o => o ++ "," ++ kv.2.getD ""
              | none => kv.2.getD "")
      else a.root_options := by
  rcases kv with ⟨k, v⟩
  cases v with
  | none =>
      simp only [parse_proc_cmdline_item]
      split_ifs <;> simp_all
  | some x =>
      rcases hb : parse_boolean x with _ | b <;>
        simp only [parse_proc_cmdline_item, hb] <;>
        split_ifs <;> simp_all

lemma joinSep_comma_cons (a b : String) (l : List String) :
    joinSep "," (a :: b :: l) = joinSep "," ((a ++ "," ++ b) :: l) := by
  cases l with
  | nil => rfl
  | cons c l' => simp [joinSep, String.append_assoc]

lemma rootWhatSpec_cons (kv : String × Option String)
    (L : List (String × Option String)) (i : Option String) :
    rootWhatSpec (kv :: L) i =
      rootWhatSpec L (if kv.1 = "root" ∧ kv.2.isSome then kv.2 else i) := by
  rcases kv with ⟨k, v⟩
  by_cases hk : k = "root"
  · subst hk
    cases v with
    | none =>
        simp only [rootWhatSpec]
        rw [List.filterMap_cons_none (by simp)]
        simp
    | some x =>
        have hf : (fun (kv : String × Option String) =>
            if kv.1 = "root" then kv.2 else none) ("root", some x) = some x := by simp
        simp only [rootWhatSpec]
        rw [@List.filterMap_cons_some (String × Option String) String
              (fun kv => if kv.1 = "root" then kv.2 else none) ("root", some x) L x hf,
            getLast?_cons_optOr, optOr_optOr_some]
        simp
  · cases v with
    | none =>
        simp only [rootWhatSpec]
        rw [List.filterMap_cons_none (by simp [hk])]
        simp [hk]
    | some x =>
        simp only [rootWhatSpec]
        rw [List.filterMap_cons_none (by simp [hk])]
        simp [hk]

lemma rootOptionsSpec_cons (kv : String × Option String)
    (L : List (String × Option String)) (i : Option String) :
    rootOptionsSpec (kv :: L) i =
      rootOptionsSpec L
        (if kv.1 = "rootflags" ∧ kv.2.isSome then
           some (match i with
                 | some o => o ++ "," ++ kv.2.getD ""
                 | none => kv.2.getD "")
         else i) := by
  rcases kv with ⟨k, v⟩
  by_cases hk : k = "rootflags"
  · subst hk
    cases v with
    | none =>
        simp only [rootOptionsSpec]
        rw [List.filterMap_cons_none (by simp)]
        simp
    | some x =>
        cases i with
        | none =>
            have hf : (fun (kv : String × Option String) =>
                if kv.1 = "rootflags" then kv.2 else none) ("rootflags", some x) = some x := by
              simp
            simp only [rootOptionsSpec]
            rw [@List.filterMap_cons_some (String × Option String) String
                  (fun kv => if kv.1 = "rootflags" then kv.2 else none)
                  ("rootflags", some x) L x hf]
            simp
        | some o =>
            have hf : (fun (kv : String × Option String) =>
                if kv.1 = "rootflags" then kv.2 else none) ("rootflags", some x) = some x := by
              simp
            simp only [rootOptionsSpec]
            rw [@List.filterMap_cons_some (String × Option String) String
                  (fun kv => if kv.1 = "rootflags" then kv.2 else none)
                  ("rootflags", some x) L x hf,
                joinSep_comma_cons]
            simp
  · cases v with
    | none =>
        cases i with
        | none =>
            simp only [rootOptionsSpec]
            rw [List.filterMap_cons_none (by simp [hk])]
            simp [hk]
        | some o =>
            simp only [rootOptionsSpec]
            rw [List.filterMap_cons_none (by simp [hk])]
            simp [hk]
    | some x =>
        cases i with
        | none =>
            simp only [rootOptionsSpec]
            rw [List.filterMap_cons_none (by simp [hk])]
            simp [hk]
        | some o =>
            simp only [rootOptionsSpec]
            rw [List.filterMap_cons_none (by simp [hk])]
            simp [hk]

/-- Claim C6: boot-parameter folding satisfies, for any ordered
parameter list and any starting override record: the root-device field
ends as the LAST `root=` value (last wins), and the root-options field
ends as the comma-separated concatenation, in order, of all
`rootflags=` values appended to any prior value. -/
theorem claim_C6 (L : List (String × Option String)) (a : Args) :
    (L.foldl parse_proc_cmdline_item a).root_what = rootWhatSpec L a.root_what ∧
    (L.foldl parse_proc_cmdline_item a).root_options = rootOptionsSpec L a.root_options := by
  induction L generalizing a with
  | nil =>
      refine ⟨by simp [rootWhatSpec, optOr], ?_⟩
      cases h : a.root_options <;> simp [rootOptionsSpec, h, joinSep]
  | cons kv L ih =>
      obtain ⟨ih1, ih2⟩ := ih (parse_proc_cmdline_item a kv)
      refine ⟨?_, ?_⟩
      · rw [List.foldl_cons, ih1, step_root_what, rootWhatSpec_cons]
      · rw [List.foldl_cons, ih2, step_root_options, rootOptionsSpec_cons]



lemma takeWhile_append_all (p : Char → Bool) (xs ys : List Char)
    (h : ∀ c ∈ xs, p c = true) :
    (xs ++ ys).takeWhile p = xs ++ ys.takeWhile p := by
  induction xs with
  | nil => simp
  | cons c l ih =>
      have hc := h c (by simp)
      simp only [List.cons_append, List.takeWhile_cons, hc, if_true]
      rw [ih (fun d hd => h d (by simp [hd]))]

lemma dropWhile_append_all (p : Char → Bool) (xs ys : List Char)
    (h : ∀ c ∈ xs, p c = true) :
    (xs ++ ys).dropWhile p = ys.dropWhile p := by
  induction xs with
  | nil => simp
  | cons c l ih =>
      have hc := h c (by simp)
      simp only [List.cons_append, List.dropWhile_cons, hc, if_true]
      exact ih (fun d hd => h d (by simp [hd]))

lemma splitOnCharL_comma_eq (l : List Char) :
    splitOnCharL ',' l =
      l.takeWhile (fun c => c ≠ ',') ::
        (match l.dropWhile (fun c => c ≠ ',') with
         | [] => []
         | _ :: r => splitOnCharL ',' r) := by
  induction l with
  | nil => simp [splitOnCharL]
  | cons c rest ih =>
      by_cases hc : c = ','
      · subst hc
        simp [splitOnCharL, List.takeWhile_cons, List.dropWhile_cons]
      · simp only [splitOnCharL, hc, if_false, List.takeWhile_cons,
          List.dropWhile_cons]
        rw [ih]
        simp [hc]

lemma findTokFromAux_none (opt : List Char) :
    ∀ (fuel : Nat) (l : List Char),
      (∀ tok ∈ splitOnCharL ',' l, tokMatch opt tok = false) →
      findTokFromAux opt fuel l = none := by
  intro fuel
  induction fuel with
  | zero => intro l _; rfl
  | succ f ih =>
      intro l h
      have h1 : tokMatch opt (l.takeWhile (fun c => c ≠ ',')) = false := by
        apply h
        rw [splitOnCharL_comma_eq]
        exact List.mem_cons_self _ _
      simp only [findTokFromAux, h1, if_false]
      rcases hd : l.dropWhile (fun c => c ≠ ',') with _ | ⟨c, r⟩
      · rfl
      · apply ih
        intro tok htok
        apply h
        rw [splitOnCharL_comma_eq, hd]
        exact List.mem_cons_of_mem _ htok



lemma digitChars_props :
    ∀ c ∈ digitChars, Char.isDigit c = true ∧ isSpaceC c = false ∧
      c ≠ '-' ∧ c ≠ '+' ∧ c ≠ ',' := by
  decide

lemma strtoul10_digits (d t : List Char) (hd : d ≠ [])
    (hdig : ∀ c ∈ d, c ∈ digitChars)
    (ht : t = [] ∨ ∃ t2, t = ',' :: t2) :
    strtoul10 (d ++ t) =
      (if natOfDigits d > ULONG_MAX then ⟨ULONG_MAX, d.length, true⟩
       else ⟨natOfDigits d, d.length, false⟩) := by
  rcases d with _ | ⟨c, d'⟩
  · exact absurd rfl hd
  · have hc := digitChars_props c (hdig c (by simp))
    have hns : isSpaceC c = false := hc.2.1
    have hcomma : Char.isDigit ',' = false := by decide
    have htake2 : (d' ++ t).takeWhile Char.isDigit = d' := by
      rw [takeWhile_append_all _ _ _
        (fun a ha => (digitChars_props a (hdig a (by simp [ha]))).1)]
      rcases ht with rfl | ⟨t2, rfl⟩
      · simp
      · simp [List.takeWhile_cons, hcomma]
    simp only [List.cons_append, strtoul10, List.takeWhile_cons, List.dropWhile_cons,
      hns, Bool.false_eq_true, if_false]
    split
    · rename_i r heq
      exfalso
      rw [List.cons.injEq] at heq
      exact hc.2.2.1 heq.1
    · rename_i r heq
      exfalso
      rw [List.cons.injEq] at heq
      exact hc.2.2.2.1 heq.1
    · rename_i r heq
      simp only [List.takeWhile_cons, hc.1, if_true, htake2]
      split_ifs <;> simp_all



lemma findTokFrom_pri (d t : List Char)
    (hd : ∀ c ∈ d, c ≠ ',')
    (ht : t = [] ∨ ∃ t2, t = ',' :: t2) :
    findTokFrom ['p', 'r', 'i'] ('p' :: 'r' :: 'i' :: '=' :: (d ++ t)) =
      some ('p' :: 'r' :: 'i' :: '=' :: (d ++ t)) := by
  have hxs : ∀ c ∈ 'p' :: 'r' :: 'i' :: '=' :: d, decide (c ≠ ',') = true := by
    intro c hc
    simp only [List.mem_cons] at hc
    rcases hc with rfl | rfl | rfl | rfl | hc
    · decide
    · decide
    · decide
    · decide
    · simpa using hd c hc
  have htok : ('p' :: 'r' :: 'i' :: '=' :: (d ++ t)).takeWhile (fun c => c ≠ ',') =
      'p' :: 'r' :: 'i' :: '=' :: d := by
    rw [show ('p' :: 'r' :: 'i' :: '=' :: (d ++ t)) =
          ('p' :: 'r' :: 'i' :: '=' :: d) ++ t from by simp]
    rw [takeWhile_append_all _ _ _ hxs]
    rcases ht with rfl | ⟨t2, rfl⟩
    · simp
    · simp [List.takeWhile_cons]
  have hmatch : tokMatch ['p', 'r', 'i'] ('p' :: 'r' :: 'i' :: '=' :: d) = true := by
    simp [tokMatch, List.isPrefixOf]
  simp only [findTokFrom, findTokFromAux, htok, hmatch, if_true]

/-- Claim C2, amended: the priority extractor behaves as claimed for
absence (`absent`, no error), `pri=10` (value 10), `pri=` and
`pri=10abc` (fatal `-EINVAL`); but a well-formed `pri=<digits>`
immediately followed by a separator or end-of-string yields the parsed
value CAST TO A SIGNED 32-BIT INT (reduced modulo `2^64` by `strtoul`
and modulo `2^32` by the `(int)` cast) — equal to the parsed
non-negative integer only when it is below `2^31` — and values above
`ULONG_MAX` are a fatal `-ERANGE` error. -/
theorem claim_C2_amended :
    (∀ opts : String,
       (∀ tok ∈ splitOnCharL ',' opts.toList, tokMatch ("pri".toList) tok = false) →
       mount_find_pri opts = PriRes.absent) ∧
    mount_find_pri "pri=10" = PriRes.found 10 ∧
    mount_find_pri "pri=" = PriRes.err (-EINVAL) ∧
    mount_find_pri "pri=10abc" = PriRes.err (-EINVAL) ∧
    (∀ d t : List Char, d ≠ [] → (∀ c ∈ d, c ∈ digitChars) →
       (t = [] ∨ ∃ t2, t = ',' :: t2) →
       mount_find_pri (String.mk ('p' :: 'r' :: 'i' :: '=' :: (d ++ t))) =
         (if natOfDigits d ≤ ULONG_MAX then PriRes.found (toInt32 (natOfDigits d))
          else PriRes.err (-ERANGE))) ∧
    (∀ n : Nat, n < 2 ^ 31 → toInt32 n = (n : Int)) := by
  refine ⟨?_, by decide, by decide, by decide, ?_, ?_⟩
  · intro opts h
    simp only [mount_find_pri, findTokFrom]
    rw [findTokFromAux_none _ _ _ h]
  · intro d t hd hdig ht
    have hdc : ∀ c ∈ d, c ≠ ',' :=
      fun c hc => (digitChars_props c (hdig c hc)).2.2.2.2
    have hf := findTokFrom_pri d t hdc ht
    have hlen : d.length ≠ 0 := fun h => hd (List.length_eq_zero.mp h)
    simp only [mount_find_pri]
    rw [show (String.mk ('p' :: 'r' :: 'i' :: '=' :: (d ++ t))).toList =
          ('p' :: 'r' :: 'i' :: '=' :: (d ++ t)) from rfl,
        show ("pri".toList) = ['p', 'r', 'i'] from rfl, hf]
    simp only [List.drop_succ_cons, List.drop_zero]
    rw [strtoul10_digits d t hd hdig ht]
    rcases Nat.lt_or_ge ULONG_MAX (natOfDigits d) with hbig | hsmall
    · rw [if_pos (show natOfDigits d > ULONG_MAX from hbig),
          if_neg (show ¬ natOfDigits d ≤ ULONG_MAX from by omega)]
      simp
    · rw [if_neg (show ¬ natOfDigits d > ULONG_MAX from by omega),
          if_pos (show natOfDigits d ≤ ULONG_MAX from hsmall)]
      rcases ht with rfl | ⟨t2, rfl⟩
      · simp [hd, List.drop_left]
      · simp [hd, List.drop_left]
  · intro n hn
    have h32 : n % 2 ^ 32 = n := Nat.mod_eq_of_lt (by omega)
    simp [toInt32, h32, hn]
    omega


/-- Witness for claim C2 (amended) at concrete inputs: no `pri` token in
`a,b` gives `absent`; `pri=5,` parses to 5; the cast is the identity on
small values. -/
theorem claim_C2_amended_witness :
    mount_find_pri "a,b" = PriRes.absent ∧
    mount_find_pri (String.mk ('p' :: 'r' :: 'i' :: '=' :: (['5'] ++ [','] ))) =
      (if natOfDigits ['5'] ≤ ULONG_MAX then PriRes.found (toInt32 (natOfDigits ['5']))
       else PriRes.err (-ERANGE)) ∧
    toInt32 5 = ((5 : Nat) : Int) :=
  ⟨claim_C2_amended.1 "a,b" (by decide),
   claim_C2_amended.2.2.2.2.1 ['5'] [','] (by decide) (by decide) (Or.inr ⟨[], rfl⟩),
   claim_C2_amended.2.2.2.2.2 5 (by decide)⟩



set_option maxHeartbeats 2000000 in
/-- Claim C5, amended: for the mount unit and the swap unit an
activation link is produced iff no-auto-start is not set (after the
root-mount forcing), and the link is weak iff fail-ignored or automount
(for mounts) resp. fail-ignored (for swaps, where automount never
applies); the companion automount unit's link however is produced
whenever the automount unit is emitted — regardless of no-auto-start —
and is weak iff fail-ignored alone. -/
theorem claim_C5_amended (what mountWhere : String) (fstype : Option String)
    (opts : String) (passno : Int) (noauto nofail automount : Bool)
    (post source : String) (created : List String)
    (ii : Bool) (swhat : String) (sme : MntEnt) (snoauto snofail : Bool)
    (screated : List String)
    (h1 : fstype ≠ some "autofs")
    (h2 : is_path mountWhere = true)
    (h3 : mount_point_is_api mountWhere = false)
    (h4 : mount_point_ignore mountWhere = false)
    (h5 : unit_name_from_path mountWhere ".mount" ∉ created)
    (h6 : unit_name_from_path mountWhere ".automount" ∉
            unit_name_from_path mountWhere ".mount" :: created)
    (h7 : (mount_find_pri sme.mnt_opts).isErr = false)
    (h8 : unit_name_from_path swhat ".swap" ∉ screated) :
    linksOf (add_mount what mountWhere fstype opts passno noauto nofail automount
        (some post) source created).2.2 =
      ((if (if path_equal mountWhere "/" then false else noauto) then []
        else [⟨post,
               (if path_equal mountWhere "/" then false else nofail) ∨
                 (if path_equal mountWhere "/" then false else automount),
               unit_name_from_path mountWhere ".mount"⟩]) ++
       (if (if path_equal mountWhere "/" then false else automount) then
          [⟨post, (if path_equal mountWhere "/" then false else nofail),
            unit_name_from_path mountWhere ".automount"⟩]
        else [])) ∧
    linksOf (add_swap ⟨false, ii⟩ swhat sme snoauto snofail screated).2.2 =
      (if snoauto then []
       else [⟨SPECIAL_SWAP_TARGET, snofail, unit_name_from_path swhat ".swap"⟩]) := by
  constructor
  · cases hroot : path_equal mountWhere "/" <;>
      cases noauto <;> cases nofail <;> cases automount <;>
        simp [add_mount, linksOf, h1, h2, h3, h4, h5, h6, hroot]
  · rcases hp : mount_find_pri sme.mnt_opts with _ | p | e
    · cases snoauto <;> simp [add_swap, linksOf, hp, h8]
    · cases snoauto <;> simp [add_swap, linksOf, hp, h8]
    · rw [hp] at h7
      exact absurd h7 (by simp [PriRes.isErr])


/-- Witness for claim C5 (amended) at concrete inputs: with `noauto` and
automount both set, the only link is the automount unit's, strong; a
`nofail` swap without `noauto` gets a weak link into the swap target. -/
theorem claim_C5_amended_witness :
    linksOf (add_mount "/dev/sdc1" "/data" (some "ext4") "noauto,x-systemd.automount"
        0 true false true (some "local-fs.target") "/etc/fstab" []).2.2 =
      [⟨"local-fs.target", false, "data.automount"⟩] ∧
    linksOf (add_swap ⟨false, false⟩ "/swapfile"
        ⟨"/swapfile", "none", "swap", "defaults", 0, 0⟩ false true []).2.2 =
      [⟨"swap.target", true, "swapfile.swap"⟩] := by
  have h := claim_C5_amended "/dev/sdc1" "/data" (some "ext4")
    "noauto,x-systemd.automount" 0 true false true "local-fs.target" "/etc/fstab" []
    false "/swapfile" ⟨"/swapfile", "none", "swap", "defaults", 0, 0⟩ false true []
    (by decide) (by decide) (by decide) (by decide) (by decide) (by decide)
    (by decide) (by decide)
  obtain ⟨hm, hs⟩ := h
  constructor
  · rw [hm]
    decide
  · rw [hs]
    decide



lemma optOr_eq_if (x y : Option String) :
    (if y.isSome ∧ x = none then y else x) = optOr x y := by
  cases x <;> cases y <;> simp [optOr]

lemma add_usr_mount_args (a : Args) (c : List String)
    (h : ¬(a.usr_what = none ∧ a.usr_fstype = none ∧ a.usr_options = none)) :
    (add_usr_mount a c).2.1 =
      { a with usr_what := optOr a.usr_what a.root_what
               usr_fstype := optOr a.usr_fstype a.root_fstype
               usr_options := optOr a.usr_options a.root_options } := by
  simp only [add_usr_mount, if_neg h, optOr_eq_if]
  split
  · split_ifs <;> rfl
  · rfl

lemma add_usr_mount_nonabs (a : Args) (created : List String) (w o : String)
    (h : ¬(a.usr_what = none ∧ a.usr_fstype = none ∧ a.usr_options = none))
    (hw : optOr a.usr_what a.root_what = some w)
    (ho : optOr a.usr_options a.root_options = some o)
    (habs : path_is_absolute (fstab_node_to_udev_node w) = false) :
    add_usr_mount a created =
      (-1, { a with usr_what := optOr a.usr_what a.root_what
                    usr_fstype := optOr a.usr_fstype a.root_fstype
                    usr_options := optOr a.usr_options a.root_options },
       created, []) := by
  simp only [add_usr_mount, if_neg h, optOr_eq_if, hw, ho]
  simp [habs]



/-- Claim C8, amended: when all three secondary (usr) fields are wholly
unset, the usr boot-override is skipped entirely — no defaulting from
the root fields occurs and nothing is emitted; defaulting happens
exactly when at least one secondary field is set: each individually
unset secondary field is then filled from the corresponding root field
(kept as-is when already set). -/
theorem claim_C8_amended :
    (∀ (a : Args) (c : List String),
       a.usr_what = none → a.usr_fstype = none → a.usr_options = none →
       add_usr_mount a c = (0, a, c, [])) ∧
    (∀ (a : Args) (c : List String),
       ¬(a.usr_what = none ∧ a.usr_fstype = none ∧ a.usr_options = none) →
       (add_usr_mount a c).2.1.usr_what = optOr a.usr_what a.root_what ∧
       (add_usr_mount a c).2.1.usr_fstype = optOr a.usr_fstype a.root_fstype ∧
       (add_usr_mount a c).2.1.usr_options = optOr a.usr_options a.root_options) := by
  constructor
  · intro a c h1 h2 h3
    simp [add_usr_mount, h1, h2, h3]
  · intro a c h
    rw [add_usr_mount_args a c h]
    exact ⟨rfl, rfl, rfl⟩

/-- Witness for claim C8 (amended) at concrete inputs: with only the usr
device set, fs-type and options are defaulted from the root fields while
the set device is kept. -/
theorem claim_C8_amended_witness :
    (add_usr_mount
        { fstab_enabled := true, root_what := some "/dev/sda",
          root_fstype := some "ext4", root_options := some "ro",
          root_rw := none, usr_what := some "/dev/sdb", usr_fstype := none,
          usr_options := none } []).2.1.usr_what = some "/dev/sdb" ∧
    (add_usr_mount
        { fstab_enabled := true, root_what := some "/dev/sda",
          root_fstype := some "ext4", root_options := some "ro",
          root_rw := none, usr_what := some "/dev/sdb", usr_fstype := none,
          usr_options := none } []).2.1.usr_fstype = some "ext4" ∧
    (add_usr_mount
        { fstab_enabled := true, root_what := some "/dev/sda",
          root_fstype := some "ext4", root_options := some "ro",
          root_rw := none, usr_what := some "/dev/sdb", usr_fstype := none,
          usr_options := none } []).2.1.usr_options = some "ro" := by
  have h := claim_C8_amended.2
    { fstab_enabled := true, root_what := some "/dev/sda",
      root_fstype := some "ext4", root_options := some "ro",
      root_rw := none, usr_what := some "/dev/sdb", usr_fstype := none,
      usr_options := none } [] (by decide)
  obtain ⟨h1, h2, h3⟩ := h
  refine ⟨?_, ?_, ?_⟩
  · rw [h1]
    decide
  · rw [h2]
    decide
  · rw [h3]
    decide



/-- Claim C7, amended: a non-absolute resolved boot-override device
skips only that boot-override mount, and both fstab passes are still
processed in full; but the two overrides differ on exit status: the root
override returns `0` (no exit-status effect), while the usr override
returns `-1`, so the run's exit status becomes FAILURE whenever the usr
boot-override device is non-absolute. -/
theorem claim_C7_amended :
    (∀ (a : Args) (created : List String) (w : String),
       a.root_what = some w → w ≠ "" →
       path_is_absolute (fstab_node_to_udev_node w) = false →
       add_root_mount a created = (0, created, [])) ∧
    (∀ (a : Args) (created : List String) (w o : String),
       ¬(a.usr_what = none ∧ a.usr_fstype = none ∧ a.usr_options = none) →
       optOr a.usr_what a.root_what = some w →
       optOr a.usr_options a.root_options = some o →
       path_is_absolute (fstab_node_to_udev_node w) = false →
       (add_usr_mount a created).1 = -1 ∧
       (add_usr_mount a created).2.2.1 = created ∧
       (add_usr_mount a created).2.2.2 = []) ∧
    (∀ (cc : Bool) (cmdline : List (String × Option String))
       (etc sys : Option (List MntEnt)) (w o : String),
       (cmdline.foldl parse_proc_cmdline_item argsDefault).fstab_enabled = true →
       (cmdline.foldl parse_proc_cmdline_item argsDefault).root_what = none →
       (cmdline.foldl parse_proc_cmdline_item argsDefault).usr_what = some w →
       (cmdline.foldl parse_proc_cmdline_item argsDefault).usr_options = some o →
       path_is_absolute (fstab_node_to_udev_node w) = false →
       mainRun ⟨cc, true⟩ cmdline etc sys =
         (1, (parse_fstab ⟨cc, true⟩ false etc []).2.2 ++
             (parse_fstab ⟨cc, true⟩ true sys
               (parse_fstab ⟨cc, true⟩ false etc []).2.1).2.2)) := by
  refine ⟨?_, ?_, ?_⟩
  · intro a created w hw hne habs
    simp [add_root_mount, hw, hne, habs]
  · intro a created w o h hw ho habs
    rw [add_usr_mount_nonabs a created w o h hw ho habs]
    exact ⟨rfl, rfl, rfl⟩
  · intro cc cmdline etc sys w o h1 h2 h3 h4 habs
    have hna : ¬((cmdline.foldl parse_proc_cmdline_item argsDefault).usr_what = none ∧
        (cmdline.foldl parse_proc_cmdline_item argsDefault).usr_fstype = none ∧
        (cmdline.foldl parse_proc_cmdline_item argsDefault).usr_options = none) := by
      simp [h3]
    have hrm : add_root_mount (cmdline.foldl parse_proc_cmdline_item argsDefault) [] =
        (0, [], []) := by
      simp [add_root_mount, h2]
    have hw : optOr (cmdline.foldl parse_proc_cmdline_item argsDefault).usr_what
        (cmdline.foldl parse_proc_cmdline_item argsDefault).root_what = some w := by
      rw [h3]
      rfl
    have ho : optOr (cmdline.foldl parse_proc_cmdline_item argsDefault).usr_options
        (cmdline.foldl parse_proc_cmdline_item argsDefault).root_options = some o := by
      rw [h4]
      rfl
    have hum := add_usr_mount_nonabs (cmdline.foldl parse_proc_cmdline_item argsDefault)
      [] w o hna hw ho habs
    simp only [mainRun, hrm, hum]
    simp only [h1, if_true]
    simp only [Prod.mk.injEq]
    constructor
    · split_ifs <;> omega
    · simp


/-- Witness for claim C7 (amended) at a concrete input: a non-absolute
usr boot-override device makes the run exit with failure while the fstab
pass is still fully processed (its mount unit and link are emitted). -/
theorem claim_C7_amended_witness :
    mainRun ⟨false, true⟩ [("mount.usr", some "foo"), ("mount.usrflags", some "ro")]
        (some [⟨"/dev/sda1", "/data", "ext4", "defaults", 0, 2⟩]) none =
      (1, [Emit.mountUnit "data.mount"
             ⟨"/etc/fstab", some "local-fs.target", true,
              "/dev/sda1", "/data", some "ext4", none⟩,
           Emit.link ⟨"local-fs.target", false, "data.mount"⟩]) := by
  have h := claim_C7_amended.2.2 false
    [("mount.usr", some "foo"), ("mount.usrflags", some "ro")]
    (some [⟨"/dev/sda1", "/data", "ext4", "defaults", 0, 2⟩]) none "foo" "ro"
    (by decide) (by decide) (by decide) (by decide) (by decide)
  rw [h]
  decide


end FstabGen
